import Mathlib

/-!  Verification of the PLY writer (`src/writer.rs`): a shallow embedding of
the writer's data model and operations, with theorems checking header layout,
ASCII and binary row encoding, error handling and ordering guarantees. -/

/-- Error kinds produced by the writer (`Error::new(ErrorKind::InvalidInput, msg)`). -/
inductive IoErr where
  | invalidInput (msg : String)
  deriving DecidableEq, Repr

/-- Outcome of one writer call: `Ok(written)`, `Err(e)`, or a Rust panic
(an `unwrap()` of `None`/`Err`). -/
inductive WOut where
  | ok (written : Nat)
  | err (e : IoErr)
  | panicked
  deriving DecidableEq, Repr

/-- A writer step over an output stream modelled as a byte list that only
grows: bytes already written stay written even when the step fails. -/
abbrev WM := List Nat → List Nat × WOut

/-- UTF-8 encoding of one character, the bytes that `str::as_bytes` exposes. -/
def utf8Bytes (c : Char) : List Nat :=
  let v := c.toNat
  if v < 128 then [v]
  else if v < 2048 then [192 + v / 64, 128 + v % 64]
  else if v < 65536 then [224 + v / 4096, 128 + v / 64 % 64, 128 + v % 64]
  else [240 + v / 262144, 128 + v / 4096 % 64, 128 + v / 64 % 64, 128 + v % 64]

/-- Bytes of a string, as `String::as_bytes` yields them. -/
def strBytes (s : String) : List Nat := s.data.flatMap utf8Bytes

/-- `out.write(bs)`: append the bytes and report their count. -/
def outWriteW (bs : List Nat) : WM := fun out => (out ++ bs, .ok bs.length)

/-- Sequencing of two writer steps, as in `written += try!(step1); written += try!(step2)`. -/
def wseq (m1 m2 : WM) : WM := fun out =>
  match m1 out with
  | (out1, .ok n1) =>
    match m2 out1 with
    | (out2, .ok n2) => (out2, .ok (n1 + n2))
    | r => r
  | r => r

/-- Modelled from the spec: the scalar type enumeration of the schema model
(`ply.rs`, not under `src/`), §3 of the spec: the 8 PLY primitive types. -/
inductive ScalarType where
  | char | uchar | short | ushort | int | uint | float | double
  deriving DecidableEq, Repr

/-- Modelled from the spec: `PropertyType` of the schema model, a scalar or a
list with an index type and a content type. -/
inductive PropertyType where
  | scalar (t : ScalarType)
  | list (index_type content_type : ScalarType)
  deriving DecidableEq, Repr

/-- Modelled from the spec: a property definition, name plus type. -/
structure PropertyDef where
  name : String
  data_type : PropertyType
  deriving DecidableEq, Repr

/-- Modelled from the spec: an element definition with its name, expected row
count, and ordered (insertion-ordered keymap) property definitions. -/
structure ElementDef where
  name : String
  count : Nat
  properties : List (String × PropertyDef)
  deriving DecidableEq, Repr

/-- Modelled from the spec: the file format version, `major.minor`. -/
structure Version where
  major : Nat
  minor : Nat
  deriving DecidableEq, Repr

/-- Modelled from the spec: the three wire encodings. -/
inductive Encoding where
  | ascii | binaryBigEndian | binaryLittleEndian
  deriving DecidableEq, Repr

/-- Modelled from the spec: the header: encoding, version, comments, obj_info
lines, and the insertion-ordered element definitions. -/
structure Header where
  encoding : Encoding
  version : Version
  comments : List String
  obj_infos : List String
  elements : List (String × ElementDef)
  deriving DecidableEq, Repr

/-- The `NewLine` configuration enum of `writer.rs`. -/
inductive NewLine where
  | n | r | rn
  deriving DecidableEq, Repr

/-- The `Writer` state: only the configured line terminator. -/
structure PlyWriter where
  new_line : String
  deriving DecidableEq, Repr

/-- `Writer::new`: the default line terminator is `"\r\n"`. -/
def PlyWriter.new : PlyWriter := { new_line := "\r\n" }

/-- `Writer::set_newline`. -/
def PlyWriter.set_newline (_w : PlyWriter) (nl : NewLine) : PlyWriter :=
  match nl with
  | .r => { new_line := "\r" }
  | .n => { new_line := "\n" }
  | .rn => { new_line := "\r\n" }

/-- Text token of a scalar type, as written by `write_scalar_type`. -/
def scalarToken : ScalarType → String
  | .char => "char"
  | .uchar => "uchar"
  | .short => "short"
  | .ushort => "ushort"
  | .int => "int"
  | .uint => "uint"
  | .float => "float"
  | .double => "double"

/-- Text token of an encoding, as written by `write_encoding`. -/
def encodingToken : Encoding → String
  | .ascii => "ascii"
  | .binaryBigEndian => "binary_big_endian"
  | .binaryLittleEndian => "binary_little_endian"

/-- `write_new_line`. -/
def write_new_line (w : PlyWriter) : WM := outWriteW (strBytes w.new_line)

/-- `write_scalar_type`. -/
def write_scalar_type (t : ScalarType) : WM := outWriteW (strBytes (scalarToken t))

/-- `write_encoding`. -/
def write_encoding (e : Encoding) : WM := outWriteW (strBytes (encodingToken e))

/-- `write_line_magic_number`. -/
def write_line_magic_number (w : PlyWriter) : WM :=
  wseq (outWriteW (strBytes "ply")) (write_new_line w)

/-- `write_line_format`. -/
def write_line_format (w : PlyWriter) (e : Encoding) (v : Version) : WM :=
  wseq (wseq (wseq (outWriteW (strBytes "format "))
    (write_encoding e))
    (outWriteW (strBytes (" " ++ toString v.major ++ "." ++ toString v.minor))))
    (write_new_line w)

/-- `write_line_comment`. -/
def write_line_comment (w : PlyWriter) (c : String) : WM :=
  wseq (outWriteW (strBytes ("comment " ++ c))) (write_new_line w)

/-- `write_line_obj_info`. -/
def write_line_obj_info (w : PlyWriter) (oi : String) : WM :=
  wseq (outWriteW (strBytes ("obj_info " ++ oi))) (write_new_line w)

/-- `write_line_element_definition`. -/
def write_line_element_definition (w : PlyWriter) (e : ElementDef) : WM :=
  wseq (outWriteW (strBytes ("element " ++ e.name ++ " " ++ toString e.count)))
    (write_new_line w)

/-- `write_property_type`: a scalar writes its token; a list writes `"list "`,
then fails when the index type is Float or Double, else writes the two tokens. -/
def write_property_type (data_type : PropertyType) : WM :=
  match data_type with
  | .scalar t => write_scalar_type t
  | .list index_type content_type =>
    wseq (outWriteW (strBytes "list "))
      (match index_type with
       | .float => fun out => (out, .err (.invalidInput "List index can not be of type float."))
       | .double => fun out => (out, .err (.invalidInput "List index can not be of type double."))
       | it => wseq (wseq (write_scalar_type it) (outWriteW (strBytes " ")))
                 (write_scalar_type content_type))

/-- `write_line_property_definition`. -/
def write_line_property_definition (w : PlyWriter) (p : PropertyDef) : WM :=
  wseq (wseq (wseq (wseq (outWriteW (strBytes "property "))
    (write_property_type p.data_type))
    (outWriteW (strBytes " ")))
    (outWriteW (strBytes p.name)))
    (write_new_line w)

/-- The property-definition loop of `write_element_definition`. -/
def write_prop_defs (w : PlyWriter) : List (String × PropertyDef) → WM
  | [] => fun out => (out, .ok 0)
  | (_, p) :: rest => wseq (write_line_property_definition w p) (write_prop_defs w rest)

/-- `write_element_definition`: the element line and all the property lines. -/
def write_element_definition (w : PlyWriter) (e : ElementDef) : WM :=
  wseq (write_line_element_definition w e) (write_prop_defs w e.properties)

/-- `write_line_end_header`. -/
def write_line_end_header (w : PlyWriter) : WM :=
  wseq (outWriteW (strBytes "end_header")) (write_new_line w)

/-- The comment loop of `write_header`. -/
def write_comments (w : PlyWriter) : List String → WM
  | [] => fun out => (out, .ok 0)
  | c :: rest => wseq (write_line_comment w c) (write_comments w rest)

/-- The obj_info loop of `write_header`. -/
def write_obj_infos (w : PlyWriter) : List String → WM
  | [] => fun out => (out, .ok 0)
  | oi :: rest => wseq (write_line_obj_info w oi) (write_obj_infos w rest)

/-- The element loop of `write_header`. -/
def write_element_defs (w : PlyWriter) : List (String × ElementDef) → WM
  | [] => fun out => (out, .ok 0)
  | (_, e) :: rest => wseq (write_element_definition w e) (write_element_defs w rest)

/-- `write_header`: magic, format, comments, obj_infos, elements, end_header. -/
def write_header (w : PlyWriter) (h : Header) : WM :=
  wseq (write_line_magic_number w)
    (wseq (write_line_format w h.encoding h.version)
      (wseq (write_comments w h.comments)
        (wseq (write_obj_infos w h.obj_infos)
          (wseq (write_element_defs w h.elements)
            (write_line_end_header w)))))

/-- Modelled from the spec: an IEEE-754 single-precision value as the writer
sees it: its 32 raw bits for binary output, and its `Display` text for ASCII
output (float formatting lives in the Rust standard library, outside this
repository). -/
structure F32 where
  bits : Nat
  text : String
  deriving DecidableEq, Repr

/-- Modelled from the spec: an IEEE-754 double-precision value, as `F32`. -/
structure F64 where
  bits : Nat
  text : String
  deriving DecidableEq, Repr

/-- Modelled from the spec: the 16-arm `Property` payload value of `ply.rs`,
one scalar arm and one list arm per scalar type. -/
inductive Property where
  | char (v : Int)
  | uchar (v : Nat)
  | short (v : Int)
  | ushort (v : Nat)
  | int (v : Int)
  | uint (v : Nat)
  | float (v : F32)
  | double (v : F64)
  | list_char (v : List Int)
  | list_uchar (v : List Nat)
  | list_short (v : List Int)
  | list_ushort (v : List Nat)
  | list_int (v : List Int)
  | list_uint (v : List Nat)
  | list_float (v : List F32)
  | list_double (v : List F64)
  deriving DecidableEq, Repr

/-- Modelled from the spec: `DefaultElement`, the canonical insertion-ordered
name-to-value map representing one row. -/
abbrev DefaultElement := List (String × Property)

/-- First-match lookup in a `DefaultElement` (keymap keys are unique). -/
def lookupProp (e : DefaultElement) (k : String) : Option Property :=
  (e.find? (fun p => p.1 == k)).map (fun p => p.2)

/-- Modelled from the spec: the `PropertyAccess` trait of `ply.rs`: typed
accessors for direct binary extraction, returning nothing on a
missing or mismatched property. -/
structure PropertyAccessImpl (P : Type) where
  get_char : P → String → Option Int
  get_uchar : P → String → Option Nat
  get_short : P → String → Option Int
  get_ushort : P → String → Option Nat
  get_int : P → String → Option Int
  get_uint : P → String → Option Nat
  get_float : P → String → Option F32
  get_double : P → String → Option F64
  get_list_char : P → String → Option (List Int)
  get_list_uchar : P → String → Option (List Nat)
  get_list_short : P → String → Option (List Int)
  get_list_ushort : P → String → Option (List Nat)
  get_list_int : P → String → Option (List Int)
  get_list_uint : P → String → Option (List Nat)
  get_list_float : P → String → Option (List F32)
  get_list_double : P → String → Option (List F64)

/-- Modelled from the spec: the `PropertyAccess` implementation of
`DefaultElement`: each accessor returns the stored value when the name is
present with the matching arm, and nothing otherwise. -/
def accDE : PropertyAccessImpl DefaultElement where
  get_char := fun e k => match lookupProp e k with | some (.char v) => some v | _ => none
  get_uchar := fun e k => match lookupProp e k with | some (.uchar v) => some v | _ => none
  get_short := fun e k => match lookupProp e k with | some (.short v) => some v | _ => none
  get_ushort := fun e k => match lookupProp e k with | some (.ushort v) => some v | _ => none
  get_int := fun e k => match lookupProp e k with | some (.int v) => some v | _ => none
  get_uint := fun e k => match lookupProp e k with | some (.uint v) => some v | _ => none
  get_float := fun e k => match lookupProp e k with | some (.float v) => some v | _ => none
  get_double := fun e k => match lookupProp e k with | some (.double v) => some v | _ => none
  get_list_char := fun e k => match lookupProp e k with | some (.list_char v) => some v | _ => none
  get_list_uchar := fun e k => match lookupProp e k with | some (.list_uchar v) => some v | _ => none
  get_list_short := fun e k => match lookupProp e k with | some (.list_short v) => some v | _ => none
  get_list_ushort := fun e k => match lookupProp e k with | some (.list_ushort v) => some v | _ => none
  get_list_int := fun e k => match lookupProp e k with | some (.list_int v) => some v | _ => none
  get_list_uint := fun e k => match lookupProp e k with | some (.list_uint v) => some v | _ => none
  get_list_float := fun e k => match lookupProp e k with | some (.list_float v) => some v | _ => none
  get_list_double := fun e k => match lookupProp e k with | some (.list_double v) => some v | _ => none

/-- The `ToElement` conversion contract (`to_element` returns an io `Result`). -/
structure ToElementImpl (P : Type) where
  to_element : P → ElementDef → Except IoErr DefaultElement

/-- The `ToElement<DefaultElement> for DefaultElement` impl of `writer.rs`
(lines 18-23): `Ok(self.clone())`, a simple identity. -/
def teDE : ToElementImpl DefaultElement where
  to_element := fun e _ => .ok e

/-- Byte order parameter, standing for the `byteorder` crate's `BigEndian`
and `LittleEndian` type parameters. -/
inductive ByteOrder where
  | be | le
  deriving DecidableEq, Repr

/-- Little-endian base-256 digits, `w` bytes, truncating above `2 ^ (8 * w)`. -/
def leBytesAux : Nat → Nat → List Nat
  | 0, _ => []
  | w + 1, v => v % 256 :: leBytesAux w (v / 256)

/-- The `w`-byte encoding of the bit pattern `v` in byte order `B`. -/
def putB : ByteOrder → Nat → Nat → List Nat
  | .le, w, v => leBytesAux w v
  | .be, w, v => (leBytesAux w v).reverse

/-- Two's-complement bit pattern of a signed value in `w` bytes. -/
def twosComp (w : Nat) (v : Int) : Nat := (v % ((2 : Int) ^ (8 * w))).toNat

/-- The bytes one scalar property contributes in `__write_binary_element`:
the typed accessor's value encoded at the type's fixed width in byte order
`B`, or nothing when the accessor has no value (the `get_prop!` case). -/
def getScalarBytes {P : Type} (B : ByteOrder) (acc : PropertyAccessImpl P)
    (e : P) (k : String) : ScalarType → Option (List Nat)
  | .char => (acc.get_char e k).map (fun v => [twosComp 1 v])
  | .uchar => (acc.get_uchar e k).map (fun v => [v % 256])
  | .short => (acc.get_short e k).map (fun v => putB B 2 (twosComp 2 v))
  | .ushort => (acc.get_ushort e k).map (fun v => putB B 2 v)
  | .int => (acc.get_int e k).map (fun v => putB B 4 (twosComp 4 v))
  | .uint => (acc.get_uint e k).map (fun v => putB B 4 v)
  | .float => (acc.get_float e k).map (fun v => putB B 4 v.bits)
  | .double => (acc.get_double e k).map (fun v => putB B 8 v.bits)

/-- The length-prefix bytes of a binary list property: `element_def.count`
cast to the declared index type (`vec_len as i8`, …); Float and Double index
types are rejected with an invalid-input error. -/
def listCountBytes (B : ByteOrder) (count : Nat) : ScalarType → Except IoErr (List Nat)
  | .char => .ok [count % 256]
  | .uchar => .ok [count % 256]
  | .short => .ok (putB B 2 count)
  | .ushort => .ok (putB B 2 count)
  | .int => .ok (putB B 4 count)
  | .uint => .ok (putB B 4 count)
  | .float => .error (.invalidInput "Index of list must be an integer type, float declared in PropertyType.")
  | .double => .error (.invalidInput "Index of list must be an integer type, double declared in PropertyType.")

/-- The bytes `write_binary_list` emits for a list property's content: each
element encoded at the content type's width in byte order `B`; nothing when
the typed list accessor has no value (the `get_prop!` case). -/
def getListBytes {P : Type} (B : ByteOrder) (acc : PropertyAccessImpl P)
    (e : P) (k : String) : ScalarType → Option (List Nat)
  | .char => (acc.get_list_char e k).map (fun l => l.flatMap (fun v => [twosComp 1 v]))
  | .uchar => (acc.get_list_uchar e k).map (fun l => l.flatMap (fun v => [v % 256]))
  | .short => (acc.get_list_short e k).map (fun l => l.flatMap (fun v => putB B 2 (twosComp 2 v)))
  | .ushort => (acc.get_list_ushort e k).map (fun l => l.flatMap (fun v => putB B 2 v))
  | .int => (acc.get_list_int e k).map (fun l => l.flatMap (fun v => putB B 4 (twosComp 4 v)))
  | .uint => (acc.get_list_uint e k).map (fun l => l.flatMap (fun v => putB B 4 v))
  | .float => (acc.get_list_float e k).map (fun l => l.flatMap (fun v => putB B 4 v.bits))
  | .double => (acc.get_list_double e k).map (fun l => l.flatMap (fun v => putB B 8 v.bits))

/-- The property loop of `__write_binary_element`. On a `get_prop!` miss the
function returns `Ok(17)` immediately; on a Float/Double list index it
returns the invalid-input error; the list prefix is `element_def.count`. -/
def writeBinProps {P : Type} (B : ByteOrder) (acc : PropertyAccessImpl P) (e : P)
    (count : Nat) : List (String × PropertyDef) → Nat → WM
  | [], written => fun out => (out, .ok written)
  | (k, pd) :: rest, written => fun out =>
    match pd.data_type with
    | .scalar t =>
      match getScalarBytes B acc e k t with
      | none => (out, .ok 17)
      | some bs => writeBinProps B acc e count rest (written + bs.length) (out ++ bs)
    | .list index_type content_type =>
      match listCountBytes B count index_type with
      | .error er => (out, .err er)
      | .ok pre =>
        match getListBytes B acc e k content_type with
        | none => (out ++ pre, .ok 17)
        | some bs =>
          writeBinProps B acc e count rest (written + pre.length + bs.length) (out ++ pre ++ bs)

/-- `__write_binary_element`, parameterized by byte order `B`. -/
def __write_binary_element {P : Type} (B : ByteOrder) (acc : PropertyAccessImpl P) (e : P)
    (element_def : ElementDef) : WM :=
  writeBinProps B acc e element_def.count element_def.properties 0

/-- `write_big_endian_element`. -/
def write_big_endian_element {P : Type} (acc : PropertyAccessImpl P) (e : P)
    (element_def : ElementDef) : WM :=
  __write_binary_element .be acc e element_def

/-- `write_little_endian_element`. Line 204 of `writer.rs` instantiates
`__write_binary_element::<T, BigEndian>`. -/
def write_little_endian_element {P : Type} (acc : PropertyAccessImpl P) (e : P)
    (element_def : ElementDef) : WM :=
  __write_binary_element .be acc e element_def

/-- Concatenation of a list of strings. -/
def concatStrs : List String → String
  | [] => ""
  | s :: rest => s ++ concatStrs rest

/-- The text `write_list` emits for a list in ASCII mode: the runtime length,
then each value preceded by a single space. -/
def listText {α : Type} (f : α → String) (l : List α) : String :=
  toString l.length ++ concatStrs (l.map (fun v => " " ++ f v))

/-- The text form of one property in ASCII mode, as `write_ascii_property`
emits it: scalars by their `Display` text (decimal for the integer types,
the standard library's float formatting for Float/Double), lists via
`write_list`. -/
def propAsciiText : Property → String
  | .char v => toString v
  | .uchar v => toString v
  | .short v => toString v
  | .ushort v => toString v
  | .int v => toString v
  | .uint v => toString v
  | .float v => v.text
  | .double v => v.text
  | .list_char l => listText toString l
  | .list_uchar l => listText toString l
  | .list_short l => listText toString l
  | .list_ushort l => listText toString l
  | .list_int l => listText toString l
  | .list_uint l => listText toString l
  | .list_float l => listText F32.text l
  | .list_double l => listText F64.text l

/-- `write_ascii_property`: the property's text bytes, with the byte count. -/
def write_ascii_property (p : Property) : WM := outWriteW (strBytes (propAsciiText p))

/-- The loop of `__write_ascii_element` after the first property: each
iteration writes one space, then stops if the iterator is exhausted, else
writes the next property; so a space is also written after the last one. -/
def asciiRest (rest : List (String × Property)) : WM :=
  match rest with
  | [] => outWriteW (strBytes " ")
  | p :: tail => wseq (wseq (outWriteW (strBytes " ")) (write_ascii_property p.2)) (asciiRest tail)

/-- `__write_ascii_element`: `p_iter.next().unwrap()` panics on a row with no
properties; otherwise: first property, then the space/property loop, then the
line terminator. -/
def __write_ascii_element (w : PlyWriter) (element : DefaultElement) : WM :=
  match element with
  | [] => fun out => (out, .panicked)
  | p :: rest =>
    wseq (wseq (write_ascii_property p.2) (asciiRest rest)) (write_new_line w)

/-- `write_ascii_element`: convert through the `ToElement` contract, then
write the canonical row. -/
def write_ascii_element {P : Type} (w : PlyWriter) (te : ToElementImpl P) (e : P)
    (element_def : ElementDef) : WM :=
  fun out =>
    match te.to_element e element_def with
    | .error er => (out, .err er)
    | .ok raw => __write_ascii_element w raw out

/-- The ASCII row loop of `write_payload_of_element`. -/
def write_rows_ascii {P : Type} (w : PlyWriter) (te : ToElementImpl P)
    (element_def : ElementDef) : List P → WM
  | [] => fun out => (out, .ok 0)
  | e :: rest =>
    wseq (fun out =>
        match te.to_element e element_def with
        | .error er => (out, .err er)
        | .ok raw => __write_ascii_element w raw out)
      (write_rows_ascii w te element_def rest)

/-- The binary row loop of `write_payload_of_element`. -/
def write_rows_binary {P : Type} (B : ByteOrder) (acc : PropertyAccessImpl P)
    (element_def : ElementDef) : List P → WM
  | [] => fun out => (out, .ok 0)
  | e :: rest =>
    wseq (__write_binary_element B acc e element_def) (write_rows_binary B acc element_def rest)

/-- `write_payload_of_element`: dispatch on the header's encoding. -/
def write_payload_of_element {P : Type} (w : PlyWriter) (acc : PropertyAccessImpl P)
    (te : ToElementImpl P) (element_list : List P) (element_def : ElementDef)
    (header : Header) : WM :=
  match header.encoding with
  | .ascii => write_rows_ascii w te element_def element_list
  | .binaryBigEndian => write_rows_binary .be acc element_def element_list
  | .binaryLittleEndian => write_rows_binary .le acc element_def element_list

/-- First-match lookup among the header's element definitions. -/
def lookupElementDef (es : List (String × ElementDef)) (k : String) : Option ElementDef :=
  (es.find? (fun p => p.1 == k)).map (fun p => p.2)

/-- `write_payload`: iterate the payload's own entries in their stored order;
`element_defs[k]` panics when the header lacks the key. -/
def write_payload {P : Type} (w : PlyWriter) (acc : PropertyAccessImpl P)
    (te : ToElementImpl P) (payload : List (String × List P)) (header : Header) : WM :=
  match payload with
  | [] => fun out => (out, .ok 0)
  | (k, element_list) :: rest =>
    match lookupElementDef header.elements k with
    | none => fun out => (out, .panicked)
    | some element_def =>
      wseq (write_payload_of_element w acc te element_list element_def header)
        (write_payload w acc te rest header)

/-- Modelled from the spec: the `Ply` document, header plus payload. -/
structure PlyDoc (P : Type) where
  header : Header
  payload : List (String × List P)

/-- `write_ply`: header, then payload, then `out.flush().unwrap()` — the
stream's flush outcome is the `flushOk` parameter, and a failing flush makes
the `unwrap()` panic. -/
def write_ply {P : Type} (w : PlyWriter) (acc : PropertyAccessImpl P)
    (te : ToElementImpl P) (flushOk : Bool) (ply : PlyDoc P) : WM :=
  fun out =>
    match wseq (write_header w ply.header) (write_payload w acc te ply.payload ply.header) out with
    | (out1, .ok n) => if flushOk then (out1, .ok n) else (out1, .panicked)
    | r => r

theorem strBytes_append (a b : String) : strBytes (a ++ b) = strBytes a ++ strBytes b := by
  unfold strBytes
  rw [String.data_append, List.flatMap_append]

def IsWrite (m : WM) (bs : List Nat) : Prop :=
  ∀ out, m out = (out ++ bs, .ok bs.length)

theorem IsWrite.out (bs : List Nat) : IsWrite (outWriteW bs) bs := fun _ => rfl

theorem IsWrite.seq {m1 m2 : WM} {b1 b2 : List Nat} (h1 : IsWrite m1 b1)
    (h2 : IsWrite m2 b2) : IsWrite (wseq m1 m2) (b1 ++ b2) := by
  intro out
  unfold wseq
  rw [h1 out]
  dsimp only
  rw [h2 (out ++ b1)]
  dsimp only
  simp [List.append_assoc]

theorem IsWrite.congr {m : WM} {b b' : List Nat} (h : IsWrite m b) (e : b' = b) :
    IsWrite m b' := e ▸ h

theorem IsWrite.seqStr {m1 m2 : WM} {s1 s2 : String} (h1 : IsWrite m1 (strBytes s1))
    (h2 : IsWrite m2 (strBytes s2)) : IsWrite (wseq m1 m2) (strBytes (s1 ++ s2)) :=
  (h1.seq h2).congr (strBytes_append s1 s2)

/-- Token of a property type as it appears on a `property` line. -/
def propTypeToken : PropertyType → String
  | .scalar t => scalarToken t
  | .list it ct => "list " ++ scalarToken it ++ " " ++ scalarToken ct

/-- A property type whose list index type is not Float or Double. -/
def validPropType : PropertyType → Bool
  | .scalar _ => true
  | .list .float _ => false
  | .list .double _ => false
  | .list _ _ => true

def validElementDef (e : ElementDef) : Bool :=
  e.properties.all (fun q => validPropType q.2.data_type)

def validHeader (h : Header) : Bool :=
  h.elements.all (fun e => validElementDef e.2)

def propLineText (w : PlyWriter) (p : PropertyDef) : String :=
  "property " ++ propTypeToken p.data_type ++ " " ++ p.name ++ w.new_line

def elementBlockText (w : PlyWriter) (e : ElementDef) : String :=
  "element " ++ e.name ++ " " ++ toString e.count ++ w.new_line
    ++ concatStrs (e.properties.map (fun q => propLineText w q.2))

def headerText (w : PlyWriter) (h : Header) : String :=
  "ply" ++ w.new_line
    ++ "format " ++ encodingToken h.encoding ++ " "
      ++ toString h.version.major ++ "." ++ toString h.version.minor ++ w.new_line
    ++ concatStrs (h.comments.map (fun c => "comment " ++ c ++ w.new_line))
    ++ concatStrs (h.obj_infos.map (fun oi => "obj_info " ++ oi ++ w.new_line))
    ++ concatStrs (h.elements.map (fun e => elementBlockText w e.2))
    ++ "end_header" ++ w.new_line

theorem isWrite_new_line (w : PlyWriter) : IsWrite (write_new_line w) (strBytes w.new_line) :=
  IsWrite.out _

theorem isWrite_scalar_type (t : ScalarType) :
    IsWrite (write_scalar_type t) (strBytes (scalarToken t)) := IsWrite.out _

theorem isWrite_encoding (e : Encoding) :
    IsWrite (write_encoding e) (strBytes (encodingToken e)) := IsWrite.out _

theorem isWrite_magic (w : PlyWriter) :
    IsWrite (write_line_magic_number w) (strBytes ("ply" ++ w.new_line)) :=
  (IsWrite.out _).seqStr (isWrite_new_line w)

theorem isWrite_format (w : PlyWriter) (e : Encoding) (v : Version) :
    IsWrite (write_line_format w e v)
      (strBytes ("format " ++ encodingToken e ++ " "
        ++ toString v.major ++ "." ++ toString v.minor ++ w.new_line)) := by
  have h := (((IsWrite.out (strBytes "format ")).seqStr (isWrite_encoding e)).seqStr
    (IsWrite.out (strBytes (" " ++ toString v.major ++ "." ++ toString v.minor)))).seqStr
    (isWrite_new_line w)
  exact h.congr (by simp [String.append_assoc])

theorem isWrite_comment (w : PlyWriter) (c : String) :
    IsWrite (write_line_comment w c) (strBytes ("comment " ++ c ++ w.new_line)) :=
  ((IsWrite.out _).seqStr (isWrite_new_line w)).congr (by simp [String.append_assoc])

theorem isWrite_obj_info (w : PlyWriter) (oi : String) :
    IsWrite (write_line_obj_info w oi) (strBytes ("obj_info " ++ oi ++ w.new_line)) :=
  ((IsWrite.out _).seqStr (isWrite_new_line w)).congr (by simp [String.append_assoc])

theorem isWrite_element_line (w : PlyWriter) (e : ElementDef) :
    IsWrite (write_line_element_definition w e)
      (strBytes ("element " ++ e.name ++ " " ++ toString e.count ++ w.new_line)) :=
  ((IsWrite.out _).seqStr (isWrite_new_line w)).congr (by simp [String.append_assoc])

theorem isWrite_property_type {dt : PropertyType} (hv : validPropType dt = true) :
    IsWrite (write_property_type dt) (strBytes (propTypeToken dt)) := by
  match dt with
  | .scalar t => exact isWrite_scalar_type t
  | .list it ct =>
    match it with
    | .float => simp [validPropType] at hv
    | .double => simp [validPropType] at hv
    | .char | .uchar | .short | .ushort | .int | .uint =>
      exact ((IsWrite.out (strBytes "list ")).seqStr
        (((isWrite_scalar_type _).seqStr (IsWrite.out (strBytes " "))).seqStr
          (isWrite_scalar_type ct))).congr (by simp [propTypeToken, String.append_assoc])

theorem isWrite_property_line {w : PlyWriter} {p : PropertyDef}
    (hv : validPropType p.data_type = true) :
    IsWrite (write_line_property_definition w p) (strBytes (propLineText w p)) := by
  have h := (((((IsWrite.out (strBytes "property ")).seqStr (isWrite_property_type hv)).seqStr
    (IsWrite.out (strBytes " "))).seqStr (IsWrite.out (strBytes p.name))).seqStr
    (isWrite_new_line w))
  exact h.congr (by simp [propLineText, String.append_assoc])

theorem isWrite_prop_defs (w : PlyWriter) : ∀ {ps : List (String × PropertyDef)},
    ps.all (fun q => validPropType q.2.data_type) = true →
    IsWrite (write_prop_defs w ps) (strBytes (concatStrs (ps.map (fun q => propLineText w q.2))))
  | [], _ => by
    intro out
    simp [write_prop_defs, concatStrs, strBytes]
  | (k, p) :: rest, hv => by
    rw [List.all_cons, Bool.and_eq_true] at hv
    obtain ⟨hp, hr⟩ := hv
    have := (isWrite_property_line (w := w) hp).seqStr (isWrite_prop_defs w hr)
    exact this.congr (by simp [concatStrs])

theorem isWrite_element_definition (w : PlyWriter) {e : ElementDef}
    (hv : validElementDef e = true) :
    IsWrite (write_element_definition w e) (strBytes (elementBlockText w e)) := by
  have := (isWrite_element_line w e).seqStr (isWrite_prop_defs w hv)
  exact this.congr (by simp [elementBlockText, String.append_assoc])

theorem isWrite_comments (w : PlyWriter) : ∀ (cs : List String),
    IsWrite (write_comments w cs)
      (strBytes (concatStrs (cs.map (fun c => "comment " ++ c ++ w.new_line))))
  | [] => by intro out; simp [write_comments, concatStrs, strBytes]
  | c :: rest => by
    have := (isWrite_comment w c).seqStr (isWrite_comments w rest)
    exact this.congr (by simp [concatStrs])

theorem isWrite_obj_infos (w : PlyWriter) : ∀ (os : List String),
    IsWrite (write_obj_infos w os)
      (strBytes (concatStrs (os.map (fun oi => "obj_info " ++ oi ++ w.new_line))))
  | [] => by intro out; simp [write_obj_infos, concatStrs, strBytes]
  | oi :: rest => by
    have := (isWrite_obj_info w oi).seqStr (isWrite_obj_infos w rest)
    exact this.congr (by simp [concatStrs])

theorem isWrite_element_defs (w : PlyWriter) : ∀ {es : List (String × ElementDef)},
    es.all (fun e => validElementDef e.2) = true →
    IsWrite (write_element_defs w es) (strBytes (concatStrs (es.map (fun e => elementBlockText w e.2))))
  | [], _ => by intro out; simp [write_element_defs, concatStrs, strBytes]
  | (k, e) :: rest, hv => by
    rw [List.all_cons, Bool.and_eq_true] at hv
    obtain ⟨he, hr⟩ := hv
    have := (isWrite_element_definition w he).seqStr (isWrite_element_defs w hr)
    exact this.congr (by simp [concatStrs])

theorem isWrite_end_header (w : PlyWriter) :
    IsWrite (write_line_end_header w) (strBytes ("end_header" ++ w.new_line)) :=
  (IsWrite.out _).seqStr (isWrite_new_line w)

theorem isWrite_header {w : PlyWriter} {h : Header} (hv : validHeader h = true) :
    IsWrite (write_header w h) (strBytes (headerText w h)) := by
  have := (isWrite_magic w).seqStr ((isWrite_format w h.encoding h.version).seqStr
    ((isWrite_comments w h.comments).seqStr ((isWrite_obj_infos w h.obj_infos).seqStr
      ((isWrite_element_defs w hv).seqStr (isWrite_end_header w)))))
  exact this.congr (by simp [headerText, String.append_assoc])

/-- Text of one ASCII row as actually produced for a nonempty canonical row:
the first property, then each further property preceded by one space, then a
single trailing space, then the line terminator. -/
def rowAsciiText (w : PlyWriter) (e : DefaultElement) : String :=
  match e with
  | [] => ""
  | p :: rest =>
    propAsciiText p.2 ++ concatStrs (rest.map (fun q => " " ++ propAsciiText q.2))
      ++ " " ++ w.new_line

theorem isWrite_asciiRest (rest : List (String × Property)) :
    IsWrite (asciiRest rest)
      (strBytes (concatStrs (rest.map (fun q => " " ++ propAsciiText q.2)) ++ " ")) := by
  induction rest with
  | nil => exact (IsWrite.out _).congr (by simp [concatStrs])
  | cons p tail ih =>
    have := ((IsWrite.out (strBytes " ")).seqStr (IsWrite.out (strBytes (propAsciiText p.2)))).seqStr ih
    exact this.congr (by simp [concatStrs, String.append_assoc])

theorem ascii_element_cons (w : PlyWriter) (p : String × Property)
    (rest : List (String × Property)) :
    IsWrite (__write_ascii_element w (p :: rest)) (strBytes (rowAsciiText w (p :: rest))) := by
  have := ((IsWrite.out (strBytes (propAsciiText p.2))).seqStr (isWrite_asciiRest rest)).seqStr
    (isWrite_new_line w)
  exact this.congr (by simp [rowAsciiText, String.append_assoc])

theorem wseq_assoc (a b c : WM) : wseq (wseq a b) c = wseq a (wseq b c) := by
  funext out
  unfold wseq
  rcases ha : a out with ⟨o1, r1⟩
  cases r1 with
  | ok n1 =>
    rcases hb : b o1 with ⟨o2, r2⟩
    cases r2 with
    | ok n2 =>
      rcases hc : c o2 with ⟨o3, r3⟩
      cases r3 <;> simp [hb, hc, Nat.add_assoc]
    | err e => simp [hb]
    | panicked => simp [hb]
  | err e => simp
  | panicked => simp

theorem wseq_ok_zero_left (m : WM) : wseq (fun out => (out, .ok 0)) m = m := by
  funext out
  unfold wseq
  rcases hm : m out with ⟨o, r⟩
  cases r <;> simp [hm]

theorem wseq_panic_left (m : WM) :
    wseq (fun out => (out, .panicked)) m = fun out => (out, .panicked) := by
  funext out
  unfold wseq
  simp

theorem write_rows_binary_append {P : Type} (B : ByteOrder) (acc : PropertyAccessImpl P)
    (ed : ElementDef) (l1 l2 : List P) :
    write_rows_binary B acc ed (l1 ++ l2) =
      wseq (write_rows_binary B acc ed l1) (write_rows_binary B acc ed l2) := by
  induction l1 with
  | nil =>
    rw [List.nil_append]
    exact (wseq_ok_zero_left _).symm
  | cons e rest ih =>
    rw [List.cons_append]
    show wseq _ (write_rows_binary B acc ed (rest ++ l2)) = _
    rw [ih, ← wseq_assoc]
    rfl

theorem write_rows_ascii_append {P : Type} (w : PlyWriter) (te : ToElementImpl P)
    (ed : ElementDef) (l1 l2 : List P) :
    write_rows_ascii w te ed (l1 ++ l2) =
      wseq (write_rows_ascii w te ed l1) (write_rows_ascii w te ed l2) := by
  induction l1 with
  | nil =>
    rw [List.nil_append]
    exact (wseq_ok_zero_left _).symm
  | cons e rest ih =>
    rw [List.cons_append]
    show wseq _ (write_rows_ascii w te ed (rest ++ l2)) = _
    rw [ih, ← wseq_assoc]
    rfl

theorem write_payload_append {P : Type} (w : PlyWriter) (acc : PropertyAccessImpl P)
    (te : ToElementImpl P) (h : Header) (p1 p2 : List (String × List P)) :
    write_payload w acc te (p1 ++ p2) h =
      wseq (write_payload w acc te p1 h) (write_payload w acc te p2 h) := by
  induction p1 with
  | nil =>
    rw [List.nil_append]
    exact (wseq_ok_zero_left _).symm
  | cons kv rest ih =>
    rcases kv with ⟨k, rows⟩
    rw [List.cons_append]
    cases hl : lookupElementDef h.elements k with
    | none =>
      have e1 : write_payload w acc te ((k, rows) :: (rest ++ p2)) h =
          fun out => (out, .panicked) := by
        simp only [write_payload]; rw [hl]
      have e2 : write_payload w acc te ((k, rows) :: rest) h =
          fun out => (out, .panicked) := by
        simp only [write_payload]; rw [hl]
      rw [e1, e2, wseq_panic_left]
    | some ed =>
      have e1 : write_payload w acc te ((k, rows) :: (rest ++ p2)) h =
          wseq (write_payload_of_element w acc te rows ed h)
            (write_payload w acc te (rest ++ p2) h) := by
        simp only [write_payload]; rw [hl]
      have e2 : write_payload w acc te ((k, rows) :: rest) h =
          wseq (write_payload_of_element w acc te rows ed h)
            (write_payload w acc te rest h) := by
        simp only [write_payload]; rw [hl]
      rw [e1, e2, ih, ← wseq_assoc]

def headerIdxErr : ScalarType → IoErr
  | .double => .invalidInput "List index can not be of type double."
  | _ => .invalidInput "List index can not be of type float."

def binaryIdxErr : ScalarType → IoErr
  | .double => .invalidInput "Index of list must be an integer type, double declared in PropertyType."
  | _ => .invalidInput "Index of list must be an integer type, float declared in PropertyType."

def edefC1 : ElementDef :=
  { name := "face", count := 5,
    properties := [("idx", { name := "idx", data_type := .list .uchar .uchar })] }

def rowC1 : DefaultElement := [("idx", .list_uchar [1, 2])]

/-- C1: the binary writer is claimed to prefix a list property with the
runtime list length; on `rowC1` (runtime length 2) under `edefC1` (declared
element count 5) it writes the prefix byte 5 — `element_def.count` — followed
by the 2 content bytes. -/
theorem C1_list_prefix_is_element_count :
    __write_binary_element .le accDE rowC1 edefC1 [] = ([5, 1, 2], .ok 3)
      ∧ (accDE.get_list_uchar rowC1 "idx").map List.length = some 2
      ∧ edefC1.count = 5
      ∧ ([5, 1, 2] : List Nat) ≠ [2, 1, 2] := by decide

def edefC2 : ElementDef :=
  { name := "vertex", count := 1,
    properties := [("x", { name := "x", data_type := .scalar .char })] }

/-- C2: a row lacking the declared property `x` is claimed to make binary
encoding fail; instead `get_prop!` makes `__write_binary_element` return
success with the placeholder byte count 17 and no bytes written. -/
theorem C2_missing_property_returns_ok_17 :
    __write_binary_element .le accDE ([] : DefaultElement) edefC2 [] = ([], .ok 17)
      ∧ accDE.get_char ([] : DefaultElement) "x" = none := by decide

def edefC3 : ElementDef :=
  { name := "vertex", count := 1,
    properties := [("n", { name := "n", data_type := .scalar .ushort })] }

def rowC3 : DefaultElement := [("n", .ushort 258)]

/-- C3: `write_little_endian_element` is claimed to emit little-endian bytes;
on the ushort value 258 = 0x0102 it emits `[1, 2]` — the big-endian bytes —
while the little-endian encoding is `[2, 1]` (the width, 2 bytes, is right). -/
theorem C3_little_endian_element_emits_big_endian :
    write_little_endian_element accDE rowC3 edefC3 [] = ([1, 2], .ok 2)
      ∧ putB .le 2 258 = [2, 1]
      ∧ putB .be 2 258 = [1, 2]
      ∧ ([1, 2] : List Nat) ≠ [2, 1] := by decide

def rowC4 : DefaultElement := [("a", .int 1), ("b", .int 2)]

/-- C4 counterexample: the ASCII row for two int properties 1 and 2 is claimed
to be exactly `"1 2"` plus the terminator; the writer emits `"1 2 \r\n"`,
with one extra space before the terminator. -/
theorem C4_trailing_space_counterexample :
    __write_ascii_element PlyWriter.new rowC4 [] = (strBytes "1 2 \r\n", .ok 6)
      ∧ strBytes "1 2 \r\n" ≠ strBytes "1 2\r\n" := by decide

/-- C4 amended: an ASCII row write of a nonempty canonical row emits the
properties' text forms in declared order separated by single spaces, then one
trailing space, then the line terminator. -/
theorem C4_ascii_row_amended (w : PlyWriter) (e : DefaultElement) (out : List Nat)
    (h : e ≠ []) :
    __write_ascii_element w e out =
      (out ++ strBytes (rowAsciiText w e), .ok (strBytes (rowAsciiText w e)).length) := by
  match e with
  | [] => exact absurd rfl h
  | p :: rest => exact ascii_element_cons w p rest out

def rowS8a : DefaultElement :=
  [("x", .float ⟨0x3F800000, "1"⟩), ("y", .float ⟨0x40000000, "2"⟩),
    ("list_of_int", .list_int [7])]

/-- C4 amended, witness: the first example row of §8 renders as
`"1 2 1 7 \r\n"` (trailing space before the terminator). -/
theorem C4_ascii_row_amended_witness :
    rowS8a ≠ []
      ∧ __write_ascii_element PlyWriter.new rowS8a [] =
          ([] ++ strBytes (rowAsciiText PlyWriter.new rowS8a),
            .ok (strBytes (rowAsciiText PlyWriter.new rowS8a)).length)
      ∧ rowAsciiText PlyWriter.new rowS8a = "1 2 1 7 \r\n" :=
  ⟨by decide, C4_ascii_row_amended PlyWriter.new rowS8a [] (by decide), by decide⟩

def hdrC5 : Header :=
  { encoding := .ascii, version := ⟨1, 0⟩, comments := [], obj_infos := [], elements := [] }

def plyC5 : PlyDoc DefaultElement := { header := hdrC5, payload := [] }

/-- C5 counterexample: with the stream's flush failing, `write_ply` ends in a
panic (`out.flush().unwrap()`), not in an error result. -/
theorem C5_flush_failure_counterexample :
    (write_ply PlyWriter.new accDE teDE false plyC5 []).2 = WOut.panicked
      ∧ ∀ e : IoErr, WOut.panicked ≠ WOut.err e :=
  ⟨by decide, fun _ h => WOut.noConfusion h⟩

/-- C5 amended: whenever the header and payload were written successfully, a
failing final flush turns the call into a panic — the failure is not silently
ignored, but it is not returned as an error result either. -/
theorem C5_flush_failure_panics {P : Type} (w : PlyWriter) (acc : PropertyAccessImpl P)
    (te : ToElementImpl P) (ply : PlyDoc P) (out o : List Nat) (n : Nat)
    (h : write_ply w acc te true ply out = (o, .ok n)) :
    write_ply w acc te false ply out = (o, .panicked) := by
  unfold write_ply at h ⊢
  rcases hm : wseq (write_header w ply.header)
      (write_payload w acc te ply.payload ply.header) out with ⟨o1, r⟩
  rw [hm] at h
  cases r with
  | ok m =>
    simp at h ⊢
    exact h.1
  | err e => simp at h
  | panicked => simp at h

/-- C5 amended, witness: on an empty document the flush-ok run returns the
header bytes, and the flush-fail run panics at the same output. -/
theorem C5_flush_failure_panics_witness :
    write_ply PlyWriter.new accDE teDE true plyC5 []
        = (strBytes "ply\r\nformat ascii 1.0\r\nend_header\r\n", .ok 35)
      ∧ write_ply PlyWriter.new accDE teDE false plyC5 []
        = (strBytes "ply\r\nformat ascii 1.0\r\nend_header\r\n", .panicked) :=
  ⟨by decide,
   C5_flush_failure_panics PlyWriter.new accDE teDE plyC5 []
     (strBytes "ply\r\nformat ascii 1.0\r\nend_header\r\n") 35 (by decide)⟩

/-- C6 counterexample: declaring a list property with Float index type is
claimed to write no bytes for the property's type token; the writer emits the
five bytes `"list "` before failing. -/
theorem C6_list_token_counterexample :
    write_property_type (.list .float .int) []
        = (strBytes "list ", .err (.invalidInput "List index can not be of type float."))
      ∧ strBytes "list " ≠ [] := by decide

/-- C6 amended: a Float or Double list index type makes the header-side
`write_property_type` fail with an invalid-input error after writing exactly
the token `"list "` (and no scalar type tokens), and makes the binary encoder
fail with an invalid-input error writing no bytes for that property. -/
theorem C6_float_index_rejected (it : ScalarType) (hv : it = .float ∨ it = .double) :
    (∀ (ct : ScalarType) (out : List Nat),
        write_property_type (.list it ct) out
          = (out ++ strBytes "list ", .err (headerIdxErr it)))
      ∧ (∀ (P : Type) (B : ByteOrder) (acc : PropertyAccessImpl P) (e : P)
          (cnt written : Nat) (k nm : String) (ct : ScalarType)
          (rest : List (String × PropertyDef)) (out : List Nat),
          writeBinProps B acc e cnt
              ((k, { name := nm, data_type := .list it ct }) :: rest) written out
            = (out, .err (binaryIdxErr it))) := by
  rcases hv with hf | hd
  · subst hf
    constructor
    · intro ct out
      simp [write_property_type, wseq, outWriteW, headerIdxErr]
    · intro P B acc e cnt written k nm ct rest out
      simp [writeBinProps, listCountBytes, binaryIdxErr]
  · subst hd
    constructor
    · intro ct out
      simp [write_property_type, wseq, outWriteW, headerIdxErr]
    · intro P B acc e cnt written k nm ct rest out
      simp [writeBinProps, listCountBytes, binaryIdxErr]

/-- C6 amended, witness at index type Float, content type Int. -/
theorem C6_float_index_rejected_witness :
    (ScalarType.float = ScalarType.float ∨ ScalarType.float = ScalarType.double)
      ∧ write_property_type (.list .float .int) []
          = ([] ++ strBytes "list ", .err (headerIdxErr .float))
      ∧ writeBinProps .le accDE ([] : DefaultElement) 1
          [("idx", { name := "idx", data_type := .list .float .int })] 0 []
          = ([], .err (binaryIdxErr .float)) :=
  ⟨Or.inl rfl,
   (C6_float_index_rejected .float (Or.inl rfl)).1 .int [],
   (C6_float_index_rejected .float (Or.inl rfl)).2 DefaultElement .le accDE [] 1 0
     "idx" "idx" .int [] []⟩

def edefA7 : ElementDef :=
  { name := "a", count := 1,
    properties := [("v", { name := "v", data_type := .scalar .uchar })] }

def edefB7 : ElementDef :=
  { name := "b", count := 1,
    properties := [("v", { name := "v", data_type := .scalar .uchar })] }

def hdrC7 : Header :=
  { encoding := .binaryLittleEndian, version := ⟨1, 0⟩, comments := [], obj_infos := [],
    elements := [("a", edefA7), ("b", edefB7)] }

def payloadC7 : List (String × List DefaultElement) :=
  [("b", [[("v", .uchar 7)]]), ("a", [[("v", .uchar 3)]])]

/-- C7 counterexample: the header declares elements in order `a`, `b`, whose
rows hold 3 and 7; the payload stores them in order `b`, `a`; the encoder is
claimed to write groups in header-schema order (bytes `[3, 7]`), but it writes
them in payload order, producing `[7, 3]`. -/
theorem C7_payload_order_counterexample :
    write_payload PlyWriter.new accDE teDE payloadC7 hdrC7 [] = ([7, 3], .ok 2)
      ∧ hdrC7.elements.map Prod.fst = ["a", "b"]
      ∧ payloadC7.map Prod.fst = ["b", "a"]
      ∧ ([7, 3] : List Nat) ≠ [3, 7] := by decide

/-- Whether one declared property of a binary row resolves: its typed accessor
yields a value and, for a list, the index type is an integer type. -/
def propResolves {P : Type} (B : ByteOrder) (acc : PropertyAccessImpl P) (e : P)
    (cnt : Nat) (q : String × PropertyDef) : Bool :=
  match q.2.data_type with
  | .scalar t => (getScalarBytes B acc e q.1 t).isSome
  | .list it ct =>
    (match listCountBytes B cnt it with | .ok _ => true | .error _ => false)
      && (getListBytes B acc e q.1 ct).isSome

/-- The bytes one resolving property contributes to a binary row: its scalar
encoding, or its length prefix followed by its content encodings. -/
def propChunk {P : Type} (B : ByteOrder) (acc : PropertyAccessImpl P) (e : P)
    (cnt : Nat) (q : String × PropertyDef) : List Nat :=
  match q.2.data_type with
  | .scalar t => (getScalarBytes B acc e q.1 t).getD []
  | .list it ct =>
    (match listCountBytes B cnt it with | .ok pre => pre | .error _ => [])
      ++ (getListBytes B acc e q.1 ct).getD []

theorem writeBinProps_chunks {P : Type} (B : ByteOrder) (acc : PropertyAccessImpl P)
    (e : P) (cnt : Nat) :
    ∀ (props : List (String × PropertyDef)) (written : Nat) (out : List Nat),
      props.all (propResolves B acc e cnt) = true →
      writeBinProps B acc e cnt props written out
        = (out ++ props.flatMap (propChunk B acc e cnt),
            .ok (written + (props.flatMap (propChunk B acc e cnt)).length))
  | [], written, out, _ => by simp [writeBinProps]
  | (k, pd) :: rest, written, out, hall => by
    rw [List.all_cons, Bool.and_eq_true] at hall
    obtain ⟨hq, hrest⟩ := hall
    rcases pd with ⟨nm, dt⟩
    cases dt with
    | scalar t =>
      simp only [propResolves] at hq
      obtain ⟨bs, hbs⟩ := Option.isSome_iff_exists.mp hq
      have ih := writeBinProps_chunks B acc e cnt rest (written + bs.length) (out ++ bs) hrest
      simp only [writeBinProps, hbs, ih, List.flatMap_cons, propChunk, Option.getD_some]
      simp [List.append_assoc, Nat.add_assoc, Nat.add_comm, Nat.add_left_comm]
    | list it ct =>
      simp only [propResolves, Bool.and_eq_true] at hq
      obtain ⟨hpre, hsome⟩ := hq
      obtain ⟨bs, hbs⟩ := Option.isSome_iff_exists.mp hsome
      rcases hlp : listCountBytes B cnt it with er | pre
      · rw [hlp] at hpre
        simp at hpre
      · have ih := writeBinProps_chunks B acc e cnt rest (written + pre.length + bs.length)
          (out ++ pre ++ bs) hrest
        simp only [writeBinProps, hlp, hbs, ih, List.flatMap_cons, propChunk, Option.getD_some]
        simp [List.append_assoc, Nat.add_assoc, Nat.add_comm, Nat.add_left_comm]

/-- C7 amended: `write_payload` writes the element groups sequentially in the
payload's own stored order, and within one element the rows sequentially in
their stored order (both in binary and in ASCII mode): splitting the payload
or a row list anywhere splits the output into the corresponding sequential
composition; and within one row the properties keep their declared order: a
binary row whose properties all resolve is the in-order concatenation of the
per-property encodings, and an ASCII row lists its properties' text forms in
stored order — so the encoder never reorders or deduplicates. -/
theorem C7_payload_sequencing :
    (∀ (P : Type) (w : PlyWriter) (acc : PropertyAccessImpl P) (te : ToElementImpl P)
        (h : Header) (p1 p2 : List (String × List P)),
        write_payload w acc te (p1 ++ p2) h
          = wseq (write_payload w acc te p1 h) (write_payload w acc te p2 h))
      ∧ (∀ (P : Type) (B : ByteOrder) (acc : PropertyAccessImpl P) (ed : ElementDef)
          (l1 l2 : List P),
          write_rows_binary B acc ed (l1 ++ l2)
            = wseq (write_rows_binary B acc ed l1) (write_rows_binary B acc ed l2))
      ∧ (∀ (P : Type) (w : PlyWriter) (te : ToElementImpl P) (ed : ElementDef)
          (l1 l2 : List P),
          write_rows_ascii w te ed (l1 ++ l2)
            = wseq (write_rows_ascii w te ed l1) (write_rows_ascii w te ed l2))
      ∧ (∀ (P : Type) (B : ByteOrder) (acc : PropertyAccessImpl P) (e : P)
          (cnt : Nat) (props : List (String × PropertyDef)) (written : Nat)
          (out : List Nat),
          props.all (propResolves B acc e cnt) = true →
          writeBinProps B acc e cnt props written out
            = (out ++ props.flatMap (propChunk B acc e cnt),
                .ok (written + (props.flatMap (propChunk B acc e cnt)).length)))
      ∧ (∀ (w : PlyWriter) (p : String × Property) (rest : List (String × Property))
          (out : List Nat),
          __write_ascii_element w (p :: rest) out
            = (out ++ strBytes (rowAsciiText w (p :: rest)),
                .ok (strBytes (rowAsciiText w (p :: rest))).length)) :=
  ⟨fun _ w acc te h p1 p2 => write_payload_append w acc te h p1 p2,
   fun _ B acc ed l1 l2 => write_rows_binary_append B acc ed l1 l2,
   fun _ w te ed l1 l2 => write_rows_ascii_append w te ed l1 l2,
   fun _ B acc e cnt props written out hall =>
     writeBinProps_chunks B acc e cnt props written out hall,
   fun w p rest out => ascii_element_cons w p rest out⟩

def edefC7w : ElementDef :=
  { name := "vertex", count := 3,
    properties := [("x", { name := "x", data_type := .scalar .float }),
                   ("idx", { name := "idx", data_type := .list .uchar .int })] }

def rowC7w : DefaultElement :=
  [("x", .float ⟨0x41200000, "10"⟩), ("idx", .list_int [1, -2])]

/-- C7 amended, witness: a payload split at a concrete point, and a concrete
two-property binary row whose output is the declared-order concatenation of
its per-property chunks. -/
theorem C7_payload_sequencing_witness :
    write_payload PlyWriter.new accDE teDE (payloadC7 ++ payloadC7) hdrC7
        = wseq (write_payload PlyWriter.new accDE teDE payloadC7 hdrC7)
            (write_payload PlyWriter.new accDE teDE payloadC7 hdrC7)
      ∧ edefC7w.properties.all (propResolves .be accDE rowC7w edefC7w.count) = true
      ∧ writeBinProps .be accDE rowC7w edefC7w.count edefC7w.properties 0 []
          = ([] ++ edefC7w.properties.flatMap (propChunk .be accDE rowC7w edefC7w.count),
              .ok (0 + (edefC7w.properties.flatMap (propChunk .be accDE rowC7w edefC7w.count)).length))
      ∧ __write_ascii_element PlyWriter.new rowC7w []
          = ([] ++ strBytes (rowAsciiText PlyWriter.new rowC7w),
              .ok (strBytes (rowAsciiText PlyWriter.new rowC7w)).length) :=
  ⟨C7_payload_sequencing.1 DefaultElement PlyWriter.new accDE teDE hdrC7 payloadC7 payloadC7,
   by decide,
   C7_payload_sequencing.2.2.2.1 DefaultElement .be accDE rowC7w edefC7w.count
     edefC7w.properties 0 [] (by decide),
   C7_payload_sequencing.2.2.2.2 PlyWriter.new ("x", .float ⟨0x41200000, "10"⟩)
     [("idx", .list_int [1, -2])] []⟩

/-- C8: `write_header` emits exactly the magic line, the format line, the
comments in order, the obj_info lines in order, each element's line with its
property lines in declared order, and `end_header`, each line ended by the
configured terminator; a fresh `Writer` defaults to `"\r\n"`. -/
theorem C8_header_layout :
    PlyWriter.new.new_line = "\r\n"
      ∧ ∀ (w : PlyWriter) (h : Header) (out : List Nat), validHeader h = true →
          write_header w h out
            = (out ++ strBytes (headerText w h), .ok (strBytes (headerText w h)).length) :=
  ⟨rfl, fun _ _ out hv => isWrite_header hv out⟩

def edefC8 : ElementDef :=
  { name := "vertex", count := 2,
    properties := [("x", { name := "x", data_type := .scalar .float }),
                   ("idx", { name := "idx", data_type := .list .uchar .int })] }

def hdrC8 : Header :=
  { encoding := .binaryBigEndian, version := ⟨1, 0⟩, comments := ["c1", "c2"],
    obj_infos := ["o1"], elements := [("vertex", edefC8)] }

/-- C8 witness: a header with two comments, one obj_info, and one element with
a scalar and a list property renders to the expected exact text. -/
theorem C8_header_layout_witness :
    validHeader hdrC8 = true
      ∧ write_header PlyWriter.new hdrC8 []
          = ([] ++ strBytes (headerText PlyWriter.new hdrC8),
              .ok (strBytes (headerText PlyWriter.new hdrC8)).length)
      ∧ headerText PlyWriter.new hdrC8
          = "ply\r\nformat binary_big_endian 1.0\r\ncomment c1\r\ncomment c2\r\nobj_info o1\r\nelement vertex 2\r\nproperty float x\r\nproperty list uchar int idx\r\nend_header\r\n" :=
  ⟨by decide, C8_header_layout.2 PlyWriter.new hdrC8 [] (by decide), by decide⟩

/-- C9: the `ToElement` impl of `DefaultElement` is the identity conversion:
it always succeeds and returns its input unchanged. -/
theorem C9_to_element_identity (e : DefaultElement) (d : ElementDef) :
    teDE.to_element e d = Except.ok e := rfl

/-- C10: the ASCII row write panics on a row whose canonical form has no
properties, and returns a success result on every nonempty row. -/
theorem C10_ascii_empty_row_panics :
    (∀ (w : PlyWriter) (out : List Nat),
        __write_ascii_element w ([] : DefaultElement) out = (out, .panicked))
      ∧ (∀ (w : PlyWriter) (out : List Nat) (e : DefaultElement), e ≠ [] →
          __write_ascii_element w e out
            = (out ++ strBytes (rowAsciiText w e), .ok (strBytes (rowAsciiText w e)).length)) := by
  constructor
  · intro w out
    rfl
  · intro w out e h
    match e with
    | [] => exact absurd rfl h
    | p :: rest => exact ascii_element_cons w p rest out

/-- C10 witness: the empty row panics; the one-property row `a = 1` succeeds
with the row text `"1 \r\n"`. -/
theorem C10_ascii_empty_row_panics_witness :
    __write_ascii_element PlyWriter.new ([] : DefaultElement) [] = ([], .panicked)
      ∧ (([("a", Property.int 1)] : DefaultElement) ≠ [])
      ∧ __write_ascii_element PlyWriter.new [("a", Property.int 1)] []
          = ([] ++ strBytes (rowAsciiText PlyWriter.new [("a", Property.int 1)]),
              .ok (strBytes (rowAsciiText PlyWriter.new [("a", Property.int 1)])).length) :=
  ⟨C10_ascii_empty_row_panics.1 PlyWriter.new [],
   by decide,
   C10_ascii_empty_row_panics.2 PlyWriter.new [] [("a", Property.int 1)] (by decide)⟩
